import Mathlib

/-!
Verification of the control-protocol engine of the claude-agent-sdk-ts
repository (src/query.ts, src/utils/asyncQueue.ts, src/types.ts) against its
natural-language specification.

The TypeScript source is shallowly embedded: JavaScript records become
association lists over a JSON value type, classes become explicit state
structures with their methods as state-transition functions, thrown errors
become Except results carrying the error message string, and the cooperative
(microtask) concurrency of the McpServerBridge is embedded as an executable
deterministic scheduler over explicit task state machines.  Each definition
carries a comment naming the source lines it was translated from.
-/

/-- A decoded JSON value, as carried on the line-delimited channel.  Records
(JavaScript objects) are association lists in insertion order, matching the
enumeration order of Object.entries used by the source. -/
inductive JsonValue where
  | null
  | bool (b : Bool)
  | num (n : Int)
  | str (s : String)
  | arr (elems : List JsonValue)
  | obj (fields : List (String × JsonValue))

/-- A JavaScript record value: fields in insertion order. -/
abbrev JsonObj := List (String × JsonValue)

/-- Observation: read a field of a record (first binding wins; records built
by the embedded code never hold duplicate keys, matching JS objects). -/
def getField (o : JsonObj) (key : String) : Option JsonValue :=
  match o with
  | [] => none
  | (k, v) :: rest => if k = key then some v else getField rest key

/-- JavaScript object-assignment semantics on an association list: an
existing binding keeps its position and gets the new value, a fresh key is
appended.  Used wherever the source assigns converted[key] = value. -/
def setEntry {κ α : Type} [DecidableEq κ] (o : List (κ × α)) (key : κ)
    (v : α) : List (κ × α) :=
  if o.any (fun p => p.1 = key) then
    o.map (fun p => if p.1 = key then (p.1, v) else p)
  else
    o ++ [(key, v)]

/-- JavaScript truthiness of a decoded JSON value, used by source conditions
such as the message check in the mcp_message branch. -/
def jsTruthy : JsonValue → Bool
  | .null => false
  | .bool b => b
  | .num n => n != 0
  | .str s => s != ""
  | .arr _ => true
  | .obj _ => true

/-- Whether typeof of the value is the string object in JavaScript (null,
arrays and records all are). -/
def jsTypeofObject : JsonValue → Bool
  | .null => true
  | .arr _ => true
  | .obj _ => true
  | _ => false

/-! ## Async channel (src/utils/asyncQueue.ts)

The AsyncQueue class is embedded as an explicit state structure.  Consumers
blocked in the iterator are modelled by a count of registered waiters; a
settlement delivered to such a waiter is reported as a WaiterEvent.  A
method that throws is modelled as returning Except.error with the thrown
message, leaving the state unchanged (the source throws before mutating). -/

/-- What a pending consumer receives when a producer-side call settles it. -/
inductive WaiterEvent (α : Type) where
  | resolvedValue (v : α)
  | resolvedDone
  | rejected (e : String)

/-- State of one AsyncQueue instance (fields of the class, lines 2-8). -/
structure AsyncQueue (α : Type) where
  values : List α
  waiters : Nat
  closed : Bool
  error : Option String

/-- A freshly constructed queue: empty buffer, no waiters, open, no error. -/
def AsyncQueue.empty (α : Type) : AsyncQueue α :=
  { values := [], waiters := 0, closed := false, error := none }

/-- push, asyncQueue.ts lines 10-24: throws if closed; otherwise serves the
oldest waiter if any, else appends to the buffer. -/
def AsyncQueue.push {α : Type} (q : AsyncQueue α) (value : α) :
    Except String (AsyncQueue α × Option (WaiterEvent α)) :=
  if q.closed then
    .error "Cannot push to a closed AsyncQueue"
  else if q.waiters > 0 then
    .ok ({ q with waiters := q.waiters - 1 }, some (.resolvedValue value))
  else
    .ok ({ q with values := q.values ++ [value] }, none)

/-- close, asyncQueue.ts lines 26-37: idempotent; marks closed and resolves
every pending waiter with done. -/
def AsyncQueue.close {α : Type} (q : AsyncQueue α) :
    AsyncQueue α × List (WaiterEvent α) :=
  if q.closed then (q, [])
  else ({ q with closed := true, waiters := 0 },
        List.replicate q.waiters .resolvedDone)

/-- fail, asyncQueue.ts lines 39-51: a no-op when already closed; otherwise
marks closed, records the error, and rejects every pending waiter. -/
def AsyncQueue.fail {α : Type} (q : AsyncQueue α) (e : String) :
    AsyncQueue α × List (WaiterEvent α) :=
  if q.closed then (q, [])
  else ({ q with closed := true, error := some e, waiters := 0 },
        List.replicate q.waiters (.rejected e))

/-! ## Hook output conversion (src/query.ts lines 92-108) -/

/-- The loop body of convertHookOutputForCli, query.ts lines 97-105: one
entry of the output record is copied onto the accumulator, under the key
async for async_, continue for continue_, and its own key otherwise. -/
def hookEntryStep {α : Type} (converted : List (String × α))
    (kv : String × α) : List (String × α) :=
  if kv.1 = "async_" then setEntry converted "async" kv.2
  else if kv.1 = "continue_" then setEntry converted "continue" kv.2
  else setEntry converted kv.1 kv.2

/-- convertHookOutputForCli, query.ts lines 92-108: rebuilds the record,
folding the loop body over the entries in order. -/
def convertHookOutputForCli {α : Type} (output : List (String × α)) :
    List (String × α) :=
  output.foldl hookEntryStep []

/-- The per-key renaming actually performed by the source: only the two
fixed keys async_ and continue_ are stripped. -/
def renameHookKey (k : String) : String :=
  if k = "async_" then "async"
  else if k = "continue_" then "continue"
  else k

/-- Whether the last character of the name is an underscore (stated on the
character list so that concrete instances compute). -/
def endsWithUnderscore (s : String) : Bool :=
  s.data.getLast? = some '_'

/-- The name with its final character removed. -/
def dropLastChar (s : String) : String :=
  String.mk s.data.dropLast

/-- Modelled from the spec: the claimed conversion, which renames every
field whose name ends in an underscore by stripping that underscore and
passes every other field through unchanged.  Stated only to be compared
against convertHookOutputForCli, the definition taken from the source. -/
def specConvertHookOutput {α : Type} (output : List (String × α)) :
    List (String × α) :=
  output.map (fun kv =>
    (if endsWithUnderscore kv.1 then dropLastChar kv.1 else kv.1, kv.2))

/-! ## Permission data model (src/types.ts lines 1-53)

The TypeScript unions of string literals become inductives; optional fields
become Option.  Because every literal of these unions is a non-empty string,
the truthiness tests of serializePermissionUpdates (if update.destination,
if update.behavior, if update.mode) coincide with presence tests, and are
embedded as matches on the Option. -/

/-- PermissionUpdateDestination, types.ts lines 7-11. -/
inductive PermissionUpdateDestination where
  | userSettings | projectSettings | localSettings | session

/-- Wire spelling of a destination literal. -/
def PermissionUpdateDestination.toWire : PermissionUpdateDestination → String
  | .userSettings => "userSettings"
  | .projectSettings => "projectSettings"
  | .localSettings => "localSettings"
  | .session => "session"

/-- PermissionBehavior, types.ts line 13. -/
inductive PermissionBehavior where
  | allow | deny | ask

/-- Wire spelling of a behavior literal. -/
def PermissionBehavior.toWire : PermissionBehavior → String
  | .allow => "allow"
  | .deny => "deny"
  | .ask => "ask"

/-- PermissionMode, types.ts lines 1-5. -/
inductive PermissionMode where
  | defaultMode | acceptEdits | plan | bypassPermissions

/-- Wire spelling of a mode literal. -/
def PermissionMode.toWire : PermissionMode → String
  | .defaultMode => "default"
  | .acceptEdits => "acceptEdits"
  | .plan => "plan"
  | .bypassPermissions => "bypassPermissions"

/-- PermissionUpdateType, the type field of PermissionUpdate,
types.ts lines 21-27. -/
inductive PermissionUpdateType where
  | addRules | replaceRules | removeRules | setMode
  | addDirectories | removeDirectories

/-- Wire spelling of an update type literal. -/
def PermissionUpdateType.toWire : PermissionUpdateType → String
  | .addRules => "addRules"
  | .replaceRules => "replaceRules"
  | .removeRules => "removeRules"
  | .setMode => "setMode"
  | .addDirectories => "addDirectories"
  | .removeDirectories => "removeDirectories"

/-- PermissionRuleValue, types.ts lines 15-18.  ruleContent may be a string,
null, or absent; the source only ever reads it through ruleContent ?? null,
which identifies null with absent, so Option String captures it. -/
structure PermissionRuleValue where
  toolName : String
  ruleContent : Option String

/-- PermissionUpdate, types.ts lines 20-33. -/
structure PermissionUpdate where
  type : PermissionUpdateType
  rules : Option (List PermissionRuleValue)
  behavior : Option PermissionBehavior
  mode : Option PermissionMode
  directories : Option (List String)
  destination : Option PermissionUpdateDestination

/-- The wire shape of one rule: toolName plus ruleContent defaulted to null,
query.ts lines 70-73. -/
def serializePermissionRule (r : PermissionRuleValue) : JsonObj :=
  [("toolName", .str r.toolName),
   ("ruleContent", match r.ruleContent with
                   | some c => .str c
                   | none => .null)]

/-- The wire object of one permission update, query.ts lines 60-88: the type
field always, then destination, rules, behavior, mode, directories, each
emitted only when present on the update (appending mirrors the sequence of
conditional assignments in the source). -/
def serializePermissionUpdate (u : PermissionUpdate) : JsonObj :=
  [("type", JsonValue.str u.type.toWire)]
    ++ (match u.destination with
        | some d => [("destination", JsonValue.str d.toWire)]
        | none => [])
    ++ (match u.rules with
        | some rs =>
          [("rules", JsonValue.arr (rs.map (fun r => .obj (serializePermissionRule r))))]
        | none => [])
    ++ (match u.behavior with
        | some b => [("behavior", JsonValue.str b.toWire)]
        | none => [])
    ++ (match u.mode with
        | some m => [("mode", JsonValue.str m.toWire)]
        | none => [])
    ++ (match u.directories with
        | some ds => [("directories", JsonValue.arr (ds.map JsonValue.str))]
        | none => [])

/-- serializePermissionUpdates, query.ts lines 53-90: undefined for an
absent or empty list, otherwise the per-update wire objects. -/
def serializePermissionUpdates (updates : Option (List PermissionUpdate)) :
    Option (List JsonObj) :=
  match updates with
  | none => none
  | some us => if us.isEmpty then none else some (us.map serializePermissionUpdate)

/-! ## Control-request dispatch (src/query.ts lines 525-635)

The handler runs as a detached task; everything it throws is caught at the
per-request boundary and becomes a control-response of subtype error, so the
whole dispatch is embedded as a total function from the request (plus an
environment supplying the pluggable callbacks) to the single response line
written back.  Awaited callback invocations are embedded as function fields
of the environment returning Except, where Except.error e models a rejection
whose message field is e. -/

/-- ToolPermissionContext, types.ts lines 35-39, as built at query.ts lines
549-554: the cancellation signal placeholder is always null (here none). -/
structure ToolPermissionContext where
  signal : Option Unit
  suggestions : List PermissionUpdate
  blockedPath : Option String

/-- PermissionResultAllow, types.ts lines 41-45. -/
structure PermissionResultAllow where
  updatedInput : Option JsonObj
  updatedPermissions : Option (List PermissionUpdate)

/-- PermissionResultDeny, types.ts lines 47-51. -/
structure PermissionResultDeny where
  message : Option String
  interrupt : Option Bool

/-- The duck-typed result of the permission callback as inspected at
query.ts lines 558 and 571: a behavior field equal to allow, equal to deny,
or anything else (the malformed case that raises at line 581). -/
inductive PermissionResult where
  | allow (a : PermissionResultAllow)
  | deny (d : PermissionResultDeny)
  | malformed

/-- HookContext, types.ts lines 55-57, as built at query.ts line 592:
always the null signal. -/
structure HookContext where
  signal : Option Unit

/-- The body of a server-initiated control request, holding exactly the
fields that handleControlRequest reads (query.ts lines 530, 544-553, 584,
590-591, 596, 601).  Every field is optional on the wire; none stands for
absent-or-null wherever the source reads the field through a nullish
coalescing default. -/
structure ControlRequestBody where
  subtype : Option String
  tool_name : Option String
  input : Option JsonObj
  permission_suggestions : Option (List PermissionUpdate)
  blocked_path : Option String
  callback_id : Option String
  tool_use_id : Option String
  server_name : Option String
  message : Option JsonValue

/-- The pluggable pieces the dispatcher consults: the optional permission
callback (constructor option canUseTool), the hook-callback registry filled
during initialize, and the bridge routing path behind
getOrCreateMcpServerBridge plus McpServerBridge.handleRequest, abstracted
here as a function from server name and embedded message to a reply or a
thrown message (the bridge itself is modelled concretely further below). -/
structure HandlerEnv where
  canUseTool : Option (String → JsonObj → ToolPermissionContext →
    Except String PermissionResult)
  hookCallbacks : List (String ×
    (Option JsonObj → Option String → HookContext →
      Except String (List (String × JsonValue))))
  mcpRoute : String → JsonValue → Except String JsonValue

/-- The try block of handleControlRequest, query.ts lines 532-613, producing
the success payload or the thrown error message.  The subtype test mirrors
the JS falsiness check (absent or empty string both fail it). -/
def dispatchControlRequest (env : HandlerEnv) (rb : ControlRequestBody) :
    Except String JsonObj :=
  match rb.subtype with
  | none => .error "控制请求缺少 subtype 字段。"
  | some st =>
    if st = "" then .error "控制请求缺少 subtype 字段。"
    else if st = "can_use_tool" then
      match env.canUseTool with
      | none => .error "未提供 canUseTool 回调，无法处理工具权限请求。"
      | some cb =>
        let toolName := rb.tool_name.getD ""
        let input := rb.input.getD []
        let context : ToolPermissionContext :=
          { signal := none
            suggestions := rb.permission_suggestions.getD []
            blockedPath := rb.blocked_path }
        match cb toolName input context with
        | .error e => .error e
        | .ok (.allow a) =>
          let base : JsonObj :=
            [("behavior", .str "allow"),
             ("updatedInput", .obj (a.updatedInput.getD input))]
          (match serializePermissionUpdates a.updatedPermissions with
           | some us =>
             .ok (base ++ [("updatedPermissions", JsonValue.arr (us.map .obj))])
           | none => .ok base)
        | .ok (.deny d) =>
          let base : JsonObj :=
            [("behavior", .str "deny"),
             ("message", .str (d.message.getD ""))]
          (match d.interrupt with
           | some b => .ok (base ++ [("interrupt", JsonValue.bool b)])
           | none => .ok base)
        | .ok .malformed =>
          .error "canUseTool 回调返回了未知的 PermissionResult 类型。"
    else if st = "hook_callback" then
      let callbackId := rb.callback_id.getD ""
      match env.hookCallbacks.lookup callbackId with
      | none => .error ("未找到 hook 回调：" ++ callbackId)
      | some cb =>
        match cb rb.input rb.tool_use_id { signal := none } with
        | .error e => .error e
        | .ok out => .ok (convertHookOutputForCli out)
    else if st = "mcp_message" then
      let serverName := rb.server_name.getD ""
      if serverName = "" then .error "MCP 控制请求缺少 server_name。"
      else
        match rb.message with
        | none => .error "MCP 控制请求缺少有效的 message 字段。"
        | some m =>
          if jsTruthy m && jsTypeofObject m then
            match env.mcpRoute serverName m with
            | .error e => .error e
            | .ok reply => .ok [("mcp_response", reply)]
          else .error "MCP 控制请求缺少有效的 message 字段。"
    else .error ("不支持的控制请求子类型：" ++ st)

/-- One control_response line as written back on the transport,
query.ts lines 615-633. -/
structure ControlResponseLine where
  subtype : String
  request_id : String
  response : Option JsonObj
  error : Option String

/-- handleControlRequest, query.ts lines 525-635: the list of
control_response lines the handler writes for one server-initiated request.
The catch-all at lines 624-634 turns any thrown message into the error
line, so the function is total and always yields exactly one line; nothing
propagates to the read loop, whose dispatch at line 488 does not await the
handler. -/
def handleControlRequest (env : HandlerEnv) (requestId : String)
    (rb : ControlRequestBody) : List ControlResponseLine :=
  match dispatchControlRequest env rb with
  | .ok payload =>
    [{ subtype := "success", request_id := requestId
       response := some payload, error := none }]
  | .error e =>
    [{ subtype := "error", request_id := requestId
       response := none, error := some e }]

/-! ## Pending control-request correlations (src/query.ts lines 366-372,
506-523, 637-671)

The pendingControlRequests Map is embedded as the list of registered
request ids (in insertion order; a JS Map never holds a key twice).  The
resolve and reject halves of a settled correlation are reported as a
SettleAction so that theorems can count settlements. -/

/-- How one pending correlation was settled by a control-response. -/
inductive SettleAction where
  | resolved (payload : JsonObj)
  | rejected (message : String)

/-- One inbound control_response envelope, query.ts lines 23-31: the
response field may be a record, null, or absent, which the source only
reads through response ?? empty-record, so Option JsonObj captures it. -/
structure ControlResponseMsg where
  subtype : String
  request_id : String
  response : Option JsonObj
  error : Option String

/-- handleControlResponse, query.ts lines 506-523: an unknown request id is
dropped silently; a known one is first removed from the registry and then
settled, rejecting with the error message (defaulted) on subtype error and
resolving with the payload (defaulted to the empty record) otherwise. -/
def handleControlResponse (pending : List String) (msg : ControlResponseMsg) :
    List String × Option (String × SettleAction) :=
  if msg.request_id ∈ pending then
    (pending.filter (fun id => id ≠ msg.request_id),
     some (msg.request_id,
       if msg.subtype = "error" then
         .rejected (msg.error.getD "控制通道返回未知错误。")
       else
         .resolved (msg.response.getD [])))
  else
    (pending, none)

/-- The read loop handling of a sequence of control-response messages,
query.ts lines 482-485: fold handleControlResponse over the arrivals,
collecting every settlement it performs. -/
def processControlResponses (pending : List String) :
    List ControlResponseMsg → List String × List (String × SettleAction)
  | [] => (pending, [])
  | m :: ms =>
    let step := handleControlResponse pending m
    let rest := processControlResponses step.1 ms
    (rest.1, step.2.toList ++ rest.2)

/-- Number of settlements a run performed for one request id. -/
def countSettles (id : String) (acts : List (String × SettleAction)) : Nat :=
  (acts.filter (fun a => a.1 = id)).length

/-- The registration half of sendControlRequest, query.ts lines 653-657:
Map.set on a fresh id (an existing key would only have its value replaced,
so the key list gains the id at most once). -/
def registerPendingControlRequest (pending : List String) (requestId : String) :
    List String :=
  if requestId ∈ pending then pending else pending ++ [requestId]

/-- The finally clause of sendControlRequest, query.ts line 669: the entry
is deleted no matter how the wait ended. -/
def cleanupPendingControlRequest (pending : List String) (requestId : String) :
    List String :=
  pending.filter (fun id => id ≠ requestId)

/-! ## Engine initialization (src/query.ts lines 396-413, 449-451)

For the claims about initialize only the branch structure, the transport
writes and the stored result matter; the correlated wait of the streaming
branch is abstracted by an oracle giving the peer reply (ok) or the
rejection message (error) of the initialize control request, and each
transport write is recorded by the subtype of the control request line it
carries.  The non-streaming branch is translated in full. -/

/-- The part of the Query state that initialize touches:
the construction-time mode flag and the cached initialization result
(query.ts lines 362, 380; null at construction, here none). -/
structure QueryInitState where
  isStreamingMode : Bool
  initializationResult : Option JsonObj

/-- initialize, query.ts lines 396-413.  Non-streaming mode stores null and
returns null without touching the transport; streaming mode writes one
initialize control request and either stores and returns the reply or
rethrows the failure wrapped as a control-request failure (the wrapping
added by sendControlRequest at lines 663-667). -/
def Query.initializeStep (s : QueryInitState) (peer : Except String JsonObj) :
    QueryInitState × List String × Except String (Option JsonObj) :=
  if !s.isStreamingMode then
    ({ s with initializationResult := none }, [], .ok none)
  else
    match peer with
    | .ok r =>
      ({ s with initializationResult := some r }, ["initialize"], .ok (some r))
    | .error e =>
      (s, ["initialize"], .error ("控制请求失败：" ++ e))

/-- getInitializationResult, query.ts lines 449-451. -/
def Query.getInitializationResult (s : QueryInitState) : Option JsonObj :=
  s.initializationResult

/-! ## Server bridge, sequential runs (src/query.ts lines 154-348)

McpServerBridge chains handleRequest calls through its pending-promise
queue, so calls issued one after another run strictly in sequence; this
model executes such a sequential run.  The in-memory transport owns a
single outbound AsyncQueue consumed through one shared iterator
(query.ts lines 183-184, 229-235), and a waitForResponse loop abandoned by
a timeout stays registered on that iterator: its id is kept in
orphanWaits, in waiter-queue order, because the queue serves the oldest
waiter first (asyncQueue.ts lines 15-20).  Time is abstracted: a
correlation wait that can no longer be fed a matching message fails with
the timeout error after mcpResponseTimeoutMs milliseconds. -/

/-- The timeout bound of waitWithTimeout as applied at query.ts line 306. -/
def mcpResponseTimeoutMs : Nat := 60000

/-- A JSON-RPC message as the bridge correlates it: the identifier is kept
in the normalized form produced at query.ts lines 328-340 (absent and null
are one class, here none; numbers and strings are compared through their
string form, here the string itself), the rest of the envelope is carried
uninterpreted. -/
structure JsonRpcMsg where
  id : Option String
  body : JsonValue

/-- The wrapped local service instance: whether it exposes connect, what
connect does (ok or a thrown message), and which messages its registered
onmessage handler sends on the transport while handling one delivery. -/
structure McpInstance where
  hasConnect : Bool
  connectResult : Except String Unit
  respond : JsonRpcMsg → List JsonRpcMsg

/-- State of one McpServerBridge together with its InMemoryMcpTransport:
the instance handed to the constructor (query.ts line 271), the connected
flag (line 268), an instrumentation count of connect() invocations, the
values buffered in the outbound queue, and the ids of correlation loops
abandoned by a timeout but still registered as waiters on the shared
outbound iterator. -/
structure BridgeState where
  inst : McpInstance
  connected : Bool
  connectCalls : Nat
  buffered : List JsonRpcMsg
  orphanWaits : List String

/-- A bridge as first constructed, query.ts lines 266-271 and 684. -/
def BridgeState.fresh (inst : McpInstance) : BridgeState :=
  { inst := inst, connected := false, connectCalls := 0,
    buffered := [], orphanWaits := [] }

/-- Routing of one message pushed on the outbound queue
(InMemoryMcpTransport.send → AsyncQueue.push, query.ts lines 191-196):
with no registered waiter it is buffered; otherwise the oldest waiter - an
abandoned waitForResponse loop - receives it (asyncQueue.ts lines 15-20)
and compares it against its own id (query.ts lines 337-343): on a match
that loop returns to a caller that already timed out, so the message is
dropped and the orphan disappears; on a mismatch the message is discarded
(line 345) and the loop re-registers behind the other waiters. -/
def routeOutboundMessage (st : BridgeState) (m : JsonRpcMsg) : BridgeState :=
  match st.orphanWaits with
  | [] => { st with buffered := st.buffered ++ [m] }
  | o :: rest =>
    if m.id = some o then { st with orphanWaits := rest }
    else { st with orphanWaits := rest ++ [o] }

/-- InMemoryMcpTransport.deliver for a connected service, query.ts lines
209-227: the onmessage handler runs and each message it sends is pushed on
the outbound queue in order. -/
def BridgeState.deliver (st : BridgeState) (m : JsonRpcMsg) : BridgeState :=
  (st.inst.respond m).foldl routeOutboundMessage st

/-- The pulling loop of waitForResponse, query.ts lines 331-346: each
iteration takes the next outbound message and compares its normalized id
against the expected one, discarding every non-matching message; the
result is the matching message together with what is left after it, or
none when the supply runs out. -/
def scanForResponse (nid : String) :
    List JsonRpcMsg → Option (JsonRpcMsg × List JsonRpcMsg)
  | [] => none
  | m :: rest =>
    if m.id = some nid then some (m, rest) else scanForResponse nid rest

/-- waitForResponse under a waitWithTimeout bound, query.ts lines 304-308
and 328-347, for a sequential run in which no further message can arrive
once the buffered ones are exhausted: if no buffered message matches, the
wait times out with the fixed error message, the discarded prefix is gone
for good, and the still-registered loop becomes an orphan waiter. -/
def BridgeState.awaitResponse (st : BridgeState) (nid : String) :
    BridgeState × Except String JsonRpcMsg :=
  match scanForResponse nid st.buffered with
  | some (m, rest) => ({ st with buffered := rest }, .ok m)
  | none =>
    ({ st with buffered := [], orphanWaits := st.orphanWaits ++ [nid] },
     .error "等待 MCP 响应超时。")

/-- McpServerBridge.ensureConnected, query.ts lines 311-326: nothing on a
connected bridge; otherwise the instance must expose connect, which is
invoked, and the connected flag is recorded only when it succeeds. -/
def BridgeState.ensureConnected (st : BridgeState) :
    BridgeState × Except String Unit :=
  if st.connected then (st, .ok ())
  else if !st.inst.hasConnect then
    (st, .error "MCP 服务器实例缺少 connect() 方法。")
  else
    match st.inst.connectResult with
    | .ok () =>
      ({ st with connected := true, connectCalls := st.connectCalls + 1 },
       .ok ())
    | .error e =>
      ({ st with connectCalls := st.connectCalls + 1 }, .error e)

/-- McpServerBridge.processRequest, query.ts lines 291-309, one sequential
call: connect if needed, deliver the message, then reply immediately for a
notification (id absent or null, lines 295-302) or correlate by id under
the timeout bound.  handleRequest (lines 273-280) chains these calls
through its queue and discards a failed predecessor (.catch, line 278),
which a sequential run renders by executing calls in order regardless of
earlier results. -/
def BridgeState.handleRequest (st : BridgeState) (m : JsonRpcMsg) :
    BridgeState × Except String JsonRpcMsg :=
  match BridgeState.ensureConnected st with
  | (st1, .error e) => (st1, .error e)
  | (st1, .ok ()) =>
    let st2 := BridgeState.deliver st1 m
    match m.id with
    | none =>
      (st2, .ok { id := none, body := .obj [("result", .null)] })
    | some nid => BridgeState.awaitResponse st2 nid

/-! ## Engine-level mcp_message routing (src/query.ts lines 595-610,
673-687) -/

/-- The registries the mcp_message path touches: the sdkMcpServers option
and the lazily filled sdkMcpBridges map (query.ts lines 363-364), each as
an association list in insertion order. -/
structure McpEngineState where
  servers : List (String × McpInstance)
  bridges : List (String × BridgeState)

/-- getOrCreateMcpServerBridge followed by handleRequest for one
mcp_message control request, query.ts lines 606-608 and 673-687: reuse the
memoized bridge, or create one for a registered instance (error for an
unknown name), then run the request against it and store the bridge back. -/
def mcpMessageStep (es : McpEngineState) (serverName : String)
    (m : JsonRpcMsg) : McpEngineState × Except String JsonRpcMsg :=
  match es.bridges.lookup serverName with
  | some bst =>
    let r := BridgeState.handleRequest bst m
    ({ es with bridges := setEntry es.bridges serverName r.1 }, r.2)
  | none =>
    match es.servers.lookup serverName with
    | none =>
      (es, .error ("未找到名为 " ++ serverName ++ " 的 SDK MCP 服务器实例。"))
    | some inst =>
      let r := BridgeState.handleRequest (BridgeState.fresh inst) m
      ({ es with bridges := setEntry es.bridges serverName r.1 }, r.2)

/-- A sequential run of mcp_message requests through the engine. -/
def runMcpMessages (es : McpEngineState) :
    List (String × JsonRpcMsg) → McpEngineState × List (Except String JsonRpcMsg)
  | [] => (es, [])
  | (name, m) :: rest =>
    let step := mcpMessageStep es name m
    let tail := runMcpMessages step.1 rest
    (tail.1, step.2 :: tail.2)

/-! ## Microtask semantics of concurrent handleRequest calls
(src/query.ts lines 273-280 with 176-236 and 291-326)

McpServerBridge.handleRequest first awaits this.queue and only afterwards
starts processRequest and installs the follow-up promise into this.queue
(lines 274-278).  An await always reads its operand once and always yields,
so the interleaving of two overlapping calls is decided by the JavaScript
microtask queue: continuations run in first-in-first-out order, an await of
an already-settled promise enqueues the continuation, an await of a pending
promise registers the continuation with that promise, and settling a
promise moves its registered continuations to the back of the queue in
registration order.  This section embeds exactly that, for runs of the
bridge against a test service whose connect assigns onmessage and then
yields once, and whose onmessage handler yields once and sends nothing
(both requests are notifications, so no correlation wait is entered and
every task terminates).

Each async-function activation is one task; calling an async function runs
the callee synchronously up to its first await inside the caller step, as
in JavaScript.  The completion promise of the activation of task t is
identified as some t; none is the initial resolved this.queue promise
(Promise.resolve(), line 269).  Installing pending.then.catch into
this.queue (lines 276-278) is rendered by installing the processRequest
completion promise itself: the two derived promises settle in the same
order a fixed number of microtasks later and no other continuation can
overtake in between, so every observable event order is preserved.

Instrumentation: activeDeliver counts deliver activations that have started
and not yet settled; the event trace records deliver starts and ends and
processRequest settlements. -/

/-- One async-function activation of the two-call scenario: handleRequest,
processRequest, ensureConnected, the connect method of the test service,
InMemoryMcpTransport.deliver, and the onmessage handler of the test
service, each for call a (false) or call b (true). -/
inductive MTask where
  | hr (b : Bool) | pr (b : Bool) | ec (b : Bool)
  | cn (b : Bool) | dv (b : Bool) | om (b : Bool)
deriving DecidableEq, Repr

/-- A promise of the scenario: none is the initial resolved this.queue,
some t the completion promise of the activation t. -/
abbrev MProm := Option MTask

/-- Events observable on the wrapped service instance and the bridge. -/
inductive MEvent where
  | deliverStart (b : Bool)
  | deliverEnd (b : Bool)
  | prSettled (b : Bool)
deriving DecidableEq, Repr

/-- The whole world of one run: the microtask queue of resumable tasks, the
program counter of every started task, the settled promises, the
promise-to-continuation registrations in registration order, the current
this.queue promise of the bridge, the connected flag and onmessage slot of
the bridge and its transport, and the instrumentation. -/
structure MWorld where
  microQ : List MTask
  pcs : List (MTask × Nat)
  settled : List MProm
  waiters : List (MProm × MTask)
  queueProm : MProm
  connected : Bool
  onmessageSet : Bool
  connectCalls : Nat
  activeDeliver : Nat
  maxDeliver : Nat
  events : List MEvent

/-- The world before any call: empty scheduler, the initial this.queue
promise already resolved (query.ts line 269), nothing connected. -/
def MWorld.init : MWorld :=
  { microQ := [], pcs := [], settled := [none], waiters := [],
    queueProm := none, connected := false, onmessageSet := false,
    connectCalls := 0, activeDeliver := 0, maxDeliver := 0, events := [] }

/-- Record the program counter a suspended task will resume at. -/
def MWorld.setPc (w : MWorld) (t : MTask) (pc : Nat) : MWorld :=
  { w with pcs := setEntry w.pcs t pc }

/-- Await of promise p by task t: enqueue the continuation if p is already
settled, register it with p otherwise. -/
def MWorld.awaitProm (w : MWorld) (t : MTask) (p : MProm) : MWorld :=
  if w.settled.contains p then { w with microQ := w.microQ ++ [t] }
  else { w with waiters := w.waiters ++ [(p, t)] }

/-- Settle promise p: mark it settled and move its registered continuations
to the back of the microtask queue in registration order. -/
def MWorld.settleProm (w : MWorld) (p : MProm) : MWorld :=
  { w with
    settled := p :: w.settled
    waiters := w.waiters.filter (fun e => e.1 ≠ p)
    microQ := w.microQ ++ (w.waiters.filter (fun e => e.1 = p)).map Prod.snd }

/-- Invoke the connect method of the test service (query.ts line 324 calling
into user code): it assigns transport.onmessage and then awaits an already
resolved promise, suspending once. -/
def startConnect (b : Bool) (w : MWorld) : MWorld :=
  let w1 := { w with connectCalls := w.connectCalls + 1, onmessageSet := true }
  ({ w1 with microQ := w1.microQ ++ [MTask.cn b] }).setPc (MTask.cn b) 1

/-- Invoke ensureConnected (query.ts lines 311-326): on a connected bridge
the body ends at once and its promise settles; otherwise connect is called,
running synchronously up to its first await, and ensureConnected suspends
awaiting the connect promise.  The connected flag is only assigned after
that await, when ensureConnected resumes. -/
def startEnsureConnected (b : Bool) (w : MWorld) : MWorld :=
  if w.connected then
    w.settleProm (some (MTask.ec b))
  else
    let w1 := startConnect b w
    (w1.awaitProm (MTask.ec b) (some (MTask.cn b))).setPc (MTask.ec b) 1

/-- Invoke the onmessage handler of the test service (query.ts line 218
calling into user code): it awaits an already resolved promise once and
sends nothing. -/
def startOnMessage (b : Bool) (w : MWorld) : MWorld :=
  ({ w with microQ := w.microQ ++ [MTask.om b] }).setPc (MTask.om b) 1

/-- Invoke InMemoryMcpTransport.deliver (query.ts lines 209-227): the
transport is open and onmessage is set in these runs, so the handler is
invoked - the deliver activation becomes live - and deliver suspends
awaiting it. -/
def startDeliver (b : Bool) (w : MWorld) : MWorld :=
  let act := w.activeDeliver + 1
  let w1 := { w with
    activeDeliver := act
    maxDeliver := max w.maxDeliver act
    events := w.events ++ [MEvent.deliverStart b] }
  let w2 := startOnMessage b w1
  (w2.awaitProm (MTask.dv b) (some (MTask.om b))).setPc (MTask.dv b) 1

/-- Invoke processRequest (query.ts lines 291-309): it immediately awaits
ensureConnected, which runs synchronously up to its first suspension. -/
def startProcessRequest (b : Bool) (w : MWorld) : MWorld :=
  let w1 := startEnsureConnected b w
  (w1.awaitProm (MTask.pr b) (some (MTask.ec b))).setPc (MTask.pr b) 1

/-- Invoke handleRequest (query.ts lines 273-280): the call runs up to
await this.queue, reading the current queue promise once, and suspends on
it - before the follow-up promise is installed, which only happens when
this activation is resumed from the microtask queue. -/
def startHandleRequest (b : Bool) (w : MWorld) : MWorld :=
  (w.awaitProm (MTask.hr b) w.queueProm).setPc (MTask.hr b) 1

/-- Resume the task at the front of the microtask queue (one microtask).
Program counters: hr 1 is the code after await this.queue (start
processRequest, install the queue promise, await the pending result,
lines 275-279); hr 2 returns.  pr 1 is the code after the ensureConnected
await (deliver, line 293); pr 2 is the code after the deliver await - both
runs use notifications, so processRequest returns its synthesized reply
(lines 295-302) and settles.  ec 1 assigns this.connected = true
(line 325) and returns.  cn 1 and om 1 are the test service resuming after
its single yield and returning.  dv 1 is deliver resuming after the
handler settled (lines 218-226) and returning. -/
def MWorld.runTask (w : MWorld) (t : MTask) : MWorld :=
  let pc := (w.pcs.lookup t).getD 0
  match t, pc with
  | .hr b, 1 =>
    let w1 := startProcessRequest b w
    let w2 := { w1 with queueProm := some (MTask.pr b) }
    (w2.awaitProm (MTask.hr b) (some (MTask.pr b))).setPc (MTask.hr b) 2
  | .hr b, _ => w.settleProm (some (MTask.hr b))
  | .pr b, 1 =>
    let w1 := startDeliver b w
    (w1.awaitProm (MTask.pr b) (some (MTask.dv b))).setPc (MTask.pr b) 2
  | .pr b, _ =>
    ({ w with events := w.events ++ [MEvent.prSettled b] }).settleProm
      (some (MTask.pr b))
  | .ec b, _ =>
    ({ w with connected := true }).settleProm (some (MTask.ec b))
  | .cn b, _ => w.settleProm (some (MTask.cn b))
  | .om b, _ => w.settleProm (some (MTask.om b))
  | .dv b, _ =>
    ({ w with
        activeDeliver := w.activeDeliver - 1
        events := w.events ++ [MEvent.deliverEnd b] }).settleProm
      (some (MTask.dv b))

/-- Drain the microtask queue for the given number of microtasks (every run
below quiesces well within its fuel). -/
def MWorld.drain : Nat → MWorld → MWorld
  | 0, w => w
  | fuel + 1, w =>
    match w.microQ with
    | [] => w
    | t :: rest => MWorld.drain fuel (MWorld.runTask { w with microQ := rest } t)

/-- Whether event x occurs before event y in a trace. -/
def occursBefore (x y : MEvent) : List MEvent → Bool
  | [] => false
  | e :: rest => if e = x then rest.contains y else occursBefore x y rest

/-- The run in which the two handleRequest calls are issued in the same
synchronous stretch, before either completes: both read the same initial
this.queue promise. -/
def raceRun : MWorld :=
  MWorld.drain 40 (startHandleRequest true (startHandleRequest false MWorld.init))

/-- The run with the dispatch interleaving the engine read loop produces:
the first call is issued, one microtask runs - the first call resumes and
installs its queue promise - and only then is the second call issued. -/
def staggeredRun : MWorld :=
  MWorld.drain 40
    (startHandleRequest true
      (MWorld.drain 1 (startHandleRequest false MWorld.init)))

/-! ## Concrete sample values

Closed instances used by the evaluation theorems and witnesses below: a
local service whose handler echoes a reply for every request except the one
with identifier 1 (whose reply never arrives), registered under the server
name demo, and two correlated requests. -/

/-- A test service: connect succeeds; the handler sends one reply carrying
the request identifier, except for identifier 1, for which it sends
nothing. -/
def demoInstance : McpInstance :=
  { hasConnect := true
    connectResult := .ok ()
    respond := fun m =>
      if m.id = some "1" then []
      else [{ id := m.id, body := JsonValue.str "reply" }] }

/-- An engine with the demo service registered and no bridge yet. -/
def demoEngine : McpEngineState :=
  { servers := [("demo", demoInstance)], bridges := [] }

/-- The request whose reply never arrives. -/
def mcpReq1 : JsonRpcMsg := { id := some "1", body := JsonValue.str "q1" }

/-- The request whose reply does arrive. -/
def mcpReq2 : JsonRpcMsg := { id := some "2", body := JsonValue.str "q2" }

/-- A handler environment with no permission callback, no registered hook
callbacks, and a bridge route that rejects every server name. -/
def emptyHandlerEnv : HandlerEnv :=
  { canUseTool := none
    hookCallbacks := []
    mcpRoute := fun _ _ => .error "unreachable" }

/-- A control-request body with every field absent. -/
def emptyRequestBody : ControlRequestBody :=
  { subtype := none, tool_name := none, input := none
    permission_suggestions := none, blocked_path := none
    callback_id := none, tool_use_id := none
    server_name := none, message := none }

/-- A permission callback granting every request without touching the
input and without permission updates. -/
def allowAllCallback : String → JsonObj → ToolPermissionContext →
    Except String PermissionResult :=
  fun _ _ _ => .ok (.allow { updatedInput := none, updatedPermissions := none })

/-- A handler environment holding only the allow-all permission callback. -/
def allowAllEnv : HandlerEnv :=
  { emptyHandlerEnv with canUseTool := some allowAllCallback }

/-! ## Theorems -/

/-- Assigning a key that no entry of the record carries appends the new
binding at the end. -/
theorem setEntry_of_not_mem {κ α : Type} [DecidableEq κ] (o : List (κ × α))
    (key : κ) (v : α) (h : ∀ p ∈ o, p.1 ≠ key) :
    setEntry o key v = o ++ [(key, v)] := by
  unfold setEntry
  rw [if_neg]
  simp only [List.any_eq_true, decide_eq_true_eq, not_exists]
  intro p
  exact fun hpc => h p hpc.1 hpc.2

/-- The loop body of the hook conversion is object assignment under the
renamed key. -/
theorem hookEntryStep_eq_setEntry {α : Type} (acc : List (String × α))
    (kv : String × α) :
    hookEntryStep acc kv = setEntry acc (renameHookKey kv.1) kv.2 := by
  unfold hookEntryStep renameHookKey
  by_cases h1 : kv.1 = "async_"
  · simp [h1]
  · by_cases h2 : kv.1 = "continue_" <;> simp [h1, h2]

/-- Folding the hook conversion over entries whose renamed keys are fresh
for the accumulator and mutually distinct appends the renamed entries. -/
theorem hookFold_append {α : Type} :
    ∀ (output acc : List (String × α)),
      (output.map (fun kv => renameHookKey kv.1)).Nodup →
      (∀ k, k ∈ acc.map Prod.fst →
        k ∉ output.map (fun kv => renameHookKey kv.1)) →
      List.foldl hookEntryStep acc output
        = acc ++ output.map (fun kv => (renameHookKey kv.1, kv.2))
  | [], acc, _, _ => by simp
  | (k, v) :: rest, acc, hnd, hdisj => by
    rw [List.map_cons] at hnd
    have hndrest := (List.nodup_cons.mp hnd).2
    have hknotin := (List.nodup_cons.mp hnd).1
    have hfresh : ∀ p ∈ acc, p.1 ≠ renameHookKey k := by
      intro p hp hc
      exact hdisj p.1 (List.mem_map_of_mem Prod.fst hp)
        (by rw [hc]; simp)
    have hdisj2 : ∀ k2, k2 ∈ (acc ++ [(renameHookKey k, v)]).map Prod.fst →
        k2 ∉ rest.map (fun kv => renameHookKey kv.1) := by
      intro k2 hk2 hk2rest
      rw [List.map_append, List.mem_append] at hk2
      rcases hk2 with hl | hr
      · exact hdisj k2 hl (by simp [hk2rest])
      · have hk2eq : k2 = renameHookKey k := by simpa using hr
        subst hk2eq
        exact hknotin hk2rest
    rw [List.foldl_cons, hookEntryStep_eq_setEntry,
      setEntry_of_not_mem acc (renameHookKey k) v hfresh,
      hookFold_append rest (acc ++ [(renameHookKey k, v)]) hndrest hdisj2]
    simp

/-- Claim C3 (corrected): convertHookOutputForCli renames exactly the two
fields async_ and continue_ (to async and continue); every other field,
underscore-suffixed or not, passes through unchanged.  Stated for outputs
whose renamed keys are pairwise distinct, which rules out the assignment
collisions a JavaScript record produces when a renamed key equals another
key. -/
theorem claim_C3_hook_output_renaming {α : Type} (output : List (String × α))
    (hnd : (output.map (fun kv => renameHookKey kv.1)).Nodup) :
    convertHookOutputForCli output
      = output.map (fun kv => (renameHookKey kv.1, kv.2)) := by
  unfold convertHookOutputForCli
  exact hookFold_append output [] hnd (by intro k hk; simp at hk)

/-- Claim C3 counterexample: the claim as stated renames every field ending
in an underscore, but the source leaves the underscore-suffixed key other_
untouched, so the claimed conversion and the implemented one disagree. -/
theorem claim_C3_counterexample :
    convertHookOutputForCli [("other_", JsonValue.bool true)]
        = [("other_", JsonValue.bool true)] ∧
    specConvertHookOutput [("other_", JsonValue.bool true)]
        = [("other", JsonValue.bool true)] ∧
    convertHookOutputForCli [("other_", JsonValue.bool true)]
        ≠ specConvertHookOutput [("other_", JsonValue.bool true)] := by
  have h1 : convertHookOutputForCli [("other_", JsonValue.bool true)]
      = [("other_", JsonValue.bool true)] := rfl
  have h2 : specConvertHookOutput [("other_", JsonValue.bool true)]
      = [("other", JsonValue.bool true)] := rfl
  refine ⟨h1, h2, fun h => ?_⟩
  rw [h1, h2] at h
  simp at h

/-- Claim C3 witness: the spec example evaluated through the amended
theorem. -/
theorem claim_C3_witness :
    convertHookOutputForCli
        [("async_", JsonValue.bool true), ("continue_", JsonValue.bool false),
         ("extra", JsonValue.str "value")]
      = [("async", JsonValue.bool true), ("continue", JsonValue.bool false),
         ("extra", JsonValue.str "value")] := by
  have h := claim_C3_hook_output_renaming (α := JsonValue)
      [("async_", JsonValue.bool true), ("continue_", JsonValue.bool false),
       ("extra", JsonValue.str "value")] (by decide)
  exact h

/-- Claim C8 (corrected): after fail the channel is closed, and a
subsequent push throws the closed-queue error instead of enqueueing - the
closed check makes push fail loudly, not silently. -/
theorem claim_C8_push_after_fail_throws {α : Type} (q : AsyncQueue α)
    (e : String) (v : α) :
    (q.fail e).1.closed = true ∧
    (q.fail e).1.push v = .error "Cannot push to a closed AsyncQueue" := by
  unfold AsyncQueue.fail AsyncQueue.push
  by_cases h : q.closed <;> simp [h]

/-- Claim C8 counterexample: on a concrete failed channel, push returns the
closed-queue error - it throws rather than being a no-op. -/
theorem claim_C8_counterexample :
    ((AsyncQueue.empty Nat).fail "boom").1.closed = true ∧
    ((AsyncQueue.empty Nat).fail "boom").1.push 3
      = .error "Cannot push to a closed AsyncQueue" :=
  ⟨rfl, rfl⟩

/-- The wire object of a permission update carries exactly the present
fields: one equation per optional field, with none on both sides when the
field is absent. -/
theorem serializePermissionUpdate_fields (u : PermissionUpdate) :
    getField (serializePermissionUpdate u) "type"
        = some (.str u.type.toWire) ∧
    getField (serializePermissionUpdate u) "destination"
        = u.destination.map (fun d => .str d.toWire) ∧
    getField (serializePermissionUpdate u) "rules"
        = u.rules.map (fun rs =>
            .arr (rs.map (fun r => .obj (serializePermissionRule r)))) ∧
    getField (serializePermissionUpdate u) "behavior"
        = u.behavior.map (fun b => .str b.toWire) ∧
    getField (serializePermissionUpdate u) "mode"
        = u.mode.map (fun m => .str m.toWire) ∧
    getField (serializePermissionUpdate u) "directories"
        = u.directories.map (fun ds => .arr (ds.map .str)) := by
  obtain ⟨t, rs, b, m, ds, d⟩ := u
  cases d <;> cases rs <;> cases b <;> cases m <;> cases ds <;>
    simp [serializePermissionUpdate, getField]

/-- Claim C7 (confirmed): each optional field present on a permission
update (rules, behavior, mode, directories, destination) appears in its
serialized wire object, with ruleContent defaulted to null inside rules;
each absent field is omitted - the lookup yields none, never a null value.
In the Allow payload, updatedPermissions appears exactly when
serializePermissionUpdates yields a wire list (a present, non-empty update
list), and carries it. -/
theorem claim_C7_permission_update_round_trip (u : PermissionUpdate)
    (r : PermissionRuleValue) :
    getField (serializePermissionUpdate u) "type"
        = some (.str u.type.toWire) ∧
    getField (serializePermissionUpdate u) "destination"
        = u.destination.map (fun d => .str d.toWire) ∧
    getField (serializePermissionUpdate u) "rules"
        = u.rules.map (fun rs =>
            .arr (rs.map (fun r2 => .obj (serializePermissionRule r2)))) ∧
    getField (serializePermissionUpdate u) "behavior"
        = u.behavior.map (fun b => .str b.toWire) ∧
    getField (serializePermissionUpdate u) "mode"
        = u.mode.map (fun m => .str m.toWire) ∧
    getField (serializePermissionUpdate u) "directories"
        = u.directories.map (fun ds => .arr (ds.map .str)) ∧
    getField (serializePermissionRule r) "ruleContent"
        = some ((r.ruleContent.map JsonValue.str).getD .null) ∧
    (∀ (env : HandlerEnv) (rb : ControlRequestBody) f
        (a : PermissionResultAllow),
      rb.subtype = some "can_use_tool" →
      env.canUseTool = some f →
      f (rb.tool_name.getD "") (rb.input.getD [])
          { signal := none, suggestions := rb.permission_suggestions.getD [],
            blockedPath := rb.blocked_path } = .ok (.allow a) →
      ∃ payload, dispatchControlRequest env rb = .ok payload ∧
        getField payload "updatedPermissions"
          = (serializePermissionUpdates a.updatedPermissions).map
              (fun us => .arr (us.map .obj))) := by
  obtain ⟨h1, h2, h3, h4, h5, h6⟩ := serializePermissionUpdate_fields u
  refine ⟨h1, h2, h3, h4, h5, h6, ?_, ?_⟩
  · cases hr : r.ruleContent <;> simp [serializePermissionRule, getField, hr]
  · intro env rb f a hsub hcb happ
    unfold dispatchControlRequest
    rw [hsub, hcb]
    simp only [reduceIte, String.reduceEq]
    rw [happ]
    cases hser : serializePermissionUpdates a.updatedPermissions <;>
      simp [hser, getField]

/-- Claim C7 witness: the theorem applied to a concrete update carrying
destination and rules only, a rule without ruleContent, and the allow-all
callback (no permission updates, so the payload omits updatedPermissions). -/
theorem claim_C7_witness :
    getField (serializePermissionUpdate
      { type := .addRules
        rules := some [{ toolName := "Bash", ruleContent := none }]
        behavior := none, mode := none, directories := none
        destination := some .session }) "destination"
      = some (.str "session") ∧
    getField (serializePermissionUpdate
      { type := .addRules
        rules := some [{ toolName := "Bash", ruleContent := none }]
        behavior := none, mode := none, directories := none
        destination := some .session }) "mode" = none ∧
    getField (serializePermissionRule { toolName := "Bash", ruleContent := none })
      "ruleContent" = some .null ∧
    (∃ payload,
      dispatchControlRequest allowAllEnv
          { emptyRequestBody with subtype := some "can_use_tool" } = .ok payload ∧
      getField payload "updatedPermissions" = none) := by
  have h := claim_C7_permission_update_round_trip
    { type := .addRules
      rules := some [{ toolName := "Bash", ruleContent := none }]
      behavior := none, mode := none, directories := none
      destination := some .session }
    { toolName := "Bash", ruleContent := none }
  refine ⟨h.2.1, h.2.2.2.2.1, h.2.2.2.2.2.2.1, ?_⟩
  exact h.2.2.2.2.2.2.2 allowAllEnv
    { emptyRequestBody with subtype := some "can_use_tool" }
    allowAllCallback { updatedInput := none, updatedPermissions := none }
    rfl rfl rfl

/-- Claim C2 (confirmed): every dispatched control request produces exactly
one control-response line carrying the request id - a success line with the
handler payload when the dispatch succeeds, an error line with the thrown
message otherwise, covering in particular a missing subtype, a missing
permission callback, an unknown hook callback id, and an unsupported
subtype.  Totality of the embedded handler reflects that no error escapes
the per-request catch into the read loop. -/
theorem claim_C2_single_response_per_request (env : HandlerEnv)
    (rid : String) (rb : ControlRequestBody) :
    (handleControlRequest env rid rb).length = 1 ∧
    (∀ l ∈ handleControlRequest env rid rb, l.request_id = rid) ∧
    (∀ payload, dispatchControlRequest env rb = .ok payload →
      handleControlRequest env rid rb
        = [{ subtype := "success", request_id := rid
             response := some payload, error := none }]) ∧
    (∀ e, dispatchControlRequest env rb = .error e →
      handleControlRequest env rid rb
        = [{ subtype := "error", request_id := rid
             response := none, error := some e }]) ∧
    (rb.subtype = none →
      dispatchControlRequest env rb = .error "控制请求缺少 subtype 字段。") ∧
    (rb.subtype = some "can_use_tool" → env.canUseTool = none →
      dispatchControlRequest env rb
        = .error "未提供 canUseTool 回调，无法处理工具权限请求。") ∧
    (rb.subtype = some "hook_callback" →
      env.hookCallbacks.lookup (rb.callback_id.getD "") = none →
      dispatchControlRequest env rb
        = .error ("未找到 hook 回调：" ++ rb.callback_id.getD "")) ∧
    (∀ st, rb.subtype = some st → st ≠ "" → st ≠ "can_use_tool" →
      st ≠ "hook_callback" → st ≠ "mcp_message" →
      dispatchControlRequest env rb
        = .error ("不支持的控制请求子类型：" ++ st)) := by
  refine ⟨?_, ?_, ?_, ?_, ?_, ?_, ?_, ?_⟩
  · cases hd : dispatchControlRequest env rb <;>
      simp [handleControlRequest, hd]
  · cases hd : dispatchControlRequest env rb <;>
      simp [handleControlRequest, hd]
  · intro payload hd
    simp [handleControlRequest, hd]
  · intro e hd
    simp [handleControlRequest, hd]
  · intro h
    unfold dispatchControlRequest
    rw [h]
  · intro h1 h2
    unfold dispatchControlRequest
    rw [h1, h2]
    simp
  · intro h1 h2
    unfold dispatchControlRequest
    rw [h1]
    simp [h2]
  · intro st h1 h2 h3 h4 h5
    unfold dispatchControlRequest
    rw [h1]
    simp [h2, h3, h4, h5]

/-- Claim C2 witness: a request with an unsupported subtype against an
empty environment yields the single error line with its request id. -/
theorem claim_C2_witness :
    handleControlRequest emptyHandlerEnv "req_7"
        { emptyRequestBody with subtype := some "bogus" }
      = [{ subtype := "error", request_id := "req_7"
           response := none
           error := some "不支持的控制请求子类型：bogus" }] := by
  have h := claim_C2_single_response_per_request emptyHandlerEnv "req_7"
    { emptyRequestBody with subtype := some "bogus" }
  exact h.2.2.2.1 "不支持的控制请求子类型：bogus"
    (h.2.2.2.2.2.2.2 "bogus" rfl (by decide) (by decide) (by decide) (by decide))

/-- Claim C10 (confirmed): when the permission callback answers Allow, the
success payload always carries updatedInput; with no updatedInput on the
decision it equals the request input field, and the empty record when the
request carries no input either. -/
theorem claim_C10_allow_updated_input_default (env : HandlerEnv)
    (rb : ControlRequestBody) (f) (a : PermissionResultAllow)
    (hsub : rb.subtype = some "can_use_tool")
    (hcb : env.canUseTool = some f)
    (happ : f (rb.tool_name.getD "") (rb.input.getD [])
        { signal := none, suggestions := rb.permission_suggestions.getD [],
          blockedPath := rb.blocked_path } = .ok (.allow a)) :
    ∃ payload, dispatchControlRequest env rb = .ok payload ∧
      getField payload "updatedInput"
        = some (.obj (a.updatedInput.getD (rb.input.getD []))) ∧
      (a.updatedInput = none →
        getField payload "updatedInput" = some (.obj (rb.input.getD []))) ∧
      (a.updatedInput = none → rb.input = none →
        getField payload "updatedInput" = some (.obj [])) := by
  unfold dispatchControlRequest
  rw [hsub, hcb]
  simp only [reduceIte, String.reduceEq]
  rw [happ]
  cases hser : serializePermissionUpdates a.updatedPermissions with
  | none =>
    simp only [hser]
    refine ⟨_, rfl, ?_, ?_, ?_⟩
    · simp [getField]
    · intro h1; simp [getField, h1]
    · intro h1 h2; simp [getField, h1, h2]
  | some us =>
    simp only [hser]
    refine ⟨_, rfl, ?_, ?_, ?_⟩
    · simp [getField]
    · intro h1; simp [getField, h1]
    · intro h1 h2; simp [getField, h1, h2]

/-- Claim C10 witness: the allow-all callback on a request carrying no
input yields a payload whose updatedInput is the empty record. -/
theorem claim_C10_witness :
    ∃ payload,
      dispatchControlRequest allowAllEnv
          { emptyRequestBody with subtype := some "can_use_tool" }
        = .ok payload ∧
      getField payload "updatedInput" = some (.obj []) := by
  obtain ⟨payload, hok, _, _, hempty⟩ :=
    claim_C10_allow_updated_input_default allowAllEnv
      { emptyRequestBody with subtype := some "can_use_tool" }
      allowAllCallback { updatedInput := none, updatedPermissions := none }
      rfl rfl rfl
  exact ⟨payload, hok, hempty rfl rfl⟩

/-- A control-response naming an id that is not registered leaves the
registry unchanged and settles nothing. -/
theorem handleControlResponse_not_mem (pending : List String)
    (m : ControlResponseMsg) (h : m.request_id ∉ pending) :
    handleControlResponse pending m = (pending, none) := by
  unfold handleControlResponse
  rw [if_neg h]

/-- A matching control-response removes the registration. -/
theorem handleControlResponse_removes (pending : List String)
    (m : ControlResponseMsg) (h : m.request_id ∈ pending) :
    m.request_id ∉ (handleControlResponse pending m).1 := by
  unfold handleControlResponse
  rw [if_pos h]
  intro hmem
  have := (List.mem_filter.mp hmem).2
  simp at this

/-- handleControlResponse never adds a registration: an id absent from the
registry stays absent. -/
theorem handleControlResponse_preserves_absent (pending : List String)
    (m : ControlResponseMsg) (id : String) (h : id ∉ pending) :
    id ∉ (handleControlResponse pending m).1 := by
  unfold handleControlResponse
  by_cases hc : m.request_id ∈ pending
  · rw [if_pos hc]
    intro hmem
    exact h (List.mem_of_mem_filter hmem)
  · rw [if_neg hc]
    exact h

/-- Unfolding equation of the response-run fold. -/
theorem processControlResponses_cons (pending : List String)
    (m : ControlResponseMsg) (ms : List ControlResponseMsg) :
    processControlResponses pending (m :: ms)
      = ((processControlResponses (handleControlResponse pending m).1 ms).1,
         (handleControlResponse pending m).2.toList
           ++ (processControlResponses (handleControlResponse pending m).1
                ms).2) := rfl

/-- Settlement counts add over concatenated runs. -/
theorem countSettles_append (id : String)
    (xs ys : List (String × SettleAction)) :
    countSettles id (xs ++ ys) = countSettles id xs + countSettles id ys := by
  simp [countSettles, List.filter_append]

/-- One read-loop step settles at most one correlation. -/
theorem countSettles_toList_le_one (id : String)
    (o : Option (String × SettleAction)) :
    countSettles id o.toList ≤ 1 := by
  have h := List.length_filter_le
    (fun a => decide (a.1 = id)) o.toList
  have h2 : o.toList.length ≤ 1 := by cases o <;> simp
  unfold countSettles
  omega

/-- A step for an id other than the settled one settles nothing for it. -/
theorem countSettles_toList_ne (id rid : String) (act : SettleAction)
    (h : rid ≠ id) :
    countSettles id (some (rid, act)).toList = 0 := by
  simp [countSettles, h]

/-- A run of control responses settles nothing for an unregistered id. -/
theorem processControlResponses_absent (id : String) :
    ∀ (msgs : List ControlResponseMsg) (pending : List String),
      id ∉ pending →
      countSettles id (processControlResponses pending msgs).2 = 0
  | [], _, _ => rfl
  | m :: ms, pending, h => by
    rw [processControlResponses_cons, countSettles_append,
      processControlResponses_absent id ms _
        (handleControlResponse_preserves_absent pending m id h)]
    have hhead : countSettles id (handleControlResponse pending m).2.toList
        = 0 := by
      by_cases hc : m.request_id ∈ pending
      · have hne : m.request_id ≠ id := fun he => h (he ▸ hc)
        unfold handleControlResponse
        rw [if_pos hc]
        exact countSettles_toList_ne id m.request_id _ hne
      · rw [handleControlResponse_not_mem pending m hc]
        rfl
    omega

/-- A run of control responses settles any id at most once: the first
matching response removes the registration, after which the run behaves as
for an unregistered id. -/
theorem processControlResponses_at_most_once (id : String) :
    ∀ (msgs : List ControlResponseMsg) (pending : List String),
      countSettles id (processControlResponses pending msgs).2 ≤ 1
  | [], _ => by simp [processControlResponses, countSettles]
  | m :: ms, pending => by
    rw [processControlResponses_cons, countSettles_append]
    by_cases hc : m.request_id ∈ pending
    · by_cases hid : m.request_id = id
      · have habs : id ∉ (handleControlResponse pending m).1 :=
          hid ▸ handleControlResponse_removes pending m hc
        rw [processControlResponses_absent id ms _ habs]
        have := countSettles_toList_le_one id (handleControlResponse pending m).2
        omega
      · have hhead : countSettles id (handleControlResponse pending m).2.toList
            = 0 := by
          unfold handleControlResponse
          rw [if_pos hc]
          exact countSettles_toList_ne id m.request_id _ hid
        rw [hhead]
        have := processControlResponses_at_most_once id ms
          (handleControlResponse pending m).1
        omega
    · rw [handleControlResponse_not_mem pending m hc]
      have := processControlResponses_at_most_once id ms pending
      simpa [countSettles] using this

/-- Claim C1 (confirmed): a control-response for an unknown id is a no-op
that does not throw; a matching one removes the registration before
settling it, so a second response for the same id is a no-op; over any run
of responses each id is settled at most once; and the finally clause of
sendControlRequest removes the registration (the failure path included),
while registration makes the entry live. -/
theorem claim_C1_correlation_settled_at_most_once (pending : List String)
    (msg msg2 : ControlResponseMsg) (msgs : List ControlResponseMsg)
    (id : String) :
    (msg.request_id ∉ pending →
      handleControlResponse pending msg = (pending, none)) ∧
    (msg.request_id ∈ pending →
      (∃ act, (handleControlResponse pending msg).2
          = some (msg.request_id, act)) ∧
      msg.request_id ∉ (handleControlResponse pending msg).1) ∧
    (msg2.request_id = msg.request_id → msg.request_id ∈ pending →
      handleControlResponse (handleControlResponse pending msg).1 msg2
        = ((handleControlResponse pending msg).1, none)) ∧
    countSettles id (processControlResponses pending msgs).2 ≤ 1 ∧
    id ∉ cleanupPendingControlRequest pending id ∧
    id ∈ registerPendingControlRequest pending id := by
  refine ⟨handleControlResponse_not_mem pending msg, ?_, ?_,
    processControlResponses_at_most_once id msgs pending, ?_, ?_⟩
  · intro h
    constructor
    · unfold handleControlResponse
      rw [if_pos h]
      exact ⟨_, rfl⟩
    · exact handleControlResponse_removes pending msg h
  · intro heq h
    exact handleControlResponse_not_mem _ msg2
      (heq ▸ handleControlResponse_removes pending msg h)
  · intro hmem
    have := (List.mem_filter.mp hmem).2
    simp at this
  · unfold registerPendingControlRequest
    by_cases h : id ∈ pending <;> simp [h]

/-- Claim C1 witness: a registry holding req_1 ignores a response for the
unknown req_9, settles two successive responses for req_1 at most once,
and the cleanup removes the entry. -/
theorem claim_C1_witness :
    handleControlResponse ["req_1"]
        { subtype := "success", request_id := "req_9"
          response := none, error := none }
      = (["req_1"], none) ∧
    countSettles "req_1"
        (processControlResponses ["req_1"]
          [{ subtype := "success", request_id := "req_1"
             response := none, error := none },
           { subtype := "success", request_id := "req_1"
             response := none, error := none }]).2 ≤ 1 ∧
    "req_1" ∉ cleanupPendingControlRequest ["req_1"] "req_1" := by
  have h := claim_C1_correlation_settled_at_most_once ["req_1"]
    { subtype := "success", request_id := "req_9"
      response := none, error := none }
    { subtype := "success", request_id := "req_9"
      response := none, error := none }
    [{ subtype := "success", request_id := "req_1"
       response := none, error := none },
     { subtype := "success", request_id := "req_1"
       response := none, error := none }]
    "req_1"
  exact ⟨h.1 (by decide), h.2.2.2.1, h.2.2.2.2.1⟩

/-- Claim C9 (confirmed): under non-streaming construction, initialize
writes nothing on the transport, stores null, and returns null, which
getInitializationResult then reports. -/
theorem claim_C9_nonstreaming_initialization (s : QueryInitState)
    (peer : Except String JsonObj) (h : s.isStreamingMode = false) :
    Query.initializeStep s peer
      = ({ s with initializationResult := none }, [], .ok none) ∧
    Query.getInitializationResult (Query.initializeStep s peer).1 = none := by
  unfold Query.initializeStep Query.getInitializationResult
  simp [h]

/-- Claim C9 witness: a concrete non-streaming engine with a stale cached
result against a peer that would reject: initialize still writes nothing
and returns the empty result. -/
theorem claim_C9_witness :
    Query.initializeStep
        { isStreamingMode := false
          initializationResult := some [("stale", JsonValue.null)] }
        (.error "peer down")
      = ({ isStreamingMode := false, initializationResult := none }, [],
         .ok none) ∧
    Query.getInitializationResult
        (Query.initializeStep
          { isStreamingMode := false
            initializationResult := some [("stale", JsonValue.null)] }
          (.error "peer down")).1 = none := by
  exact claim_C9_nonstreaming_initialization
    { isStreamingMode := false
      initializationResult := some [("stale", JsonValue.null)] }
    (.error "peer down") rfl

/-- Looking up the key of the head binding yields its value. -/
theorem lookup_cons_self {α : Type} (k : String) (v : α)
    (rest : List (String × α)) :
    ((k, v) :: rest).lookup k = some v := by
  simp [List.lookup]

/-- Looking up a key different from the head key skips the head. -/
theorem lookup_cons_ne {α : Type} (k : String) (p : String × α)
    (rest : List (String × α)) (h : k ≠ p.1) :
    (p :: rest).lookup k = rest.lookup k := by
  obtain ⟨k1, v1⟩ := p
  have hb : (k == k1) = false := beq_eq_false_iff_ne.mpr h
  simp [List.lookup, hb]

/-- A key no entry carries looks up to none. -/
theorem lookup_none_of_any_false {α : Type} :
    ∀ (o : List (String × α)) (k : String),
      o.any (fun p => p.1 = k) = false → o.lookup k = none
  | [], _, _ => rfl
  | p :: rest, k, h => by
    rw [List.any_cons, Bool.or_eq_false_iff] at h
    have h1 : ¬ p.1 = k := by simpa using h.1
    rw [lookup_cons_ne k p rest (fun he => h1 he.symm)]
    exact lookup_none_of_any_false rest k h.2

/-- A looked-up key is carried by some entry. -/
theorem any_true_of_lookup_some {α : Type} :
    ∀ (o : List (String × α)) (k : String) (v : α),
      o.lookup k = some v → o.any (fun p => p.1 = k) = true
  | [], k, v, h => by simp [List.lookup] at h
  | p :: rest, k, v, h => by
    by_cases he : k = p.1
    · simp [List.any_cons, he]
    · rw [lookup_cons_ne k p rest he] at h
      rw [List.any_cons, any_true_of_lookup_some rest k v h, Bool.or_true]

/-- A key some entry carries looks up to a value. -/
theorem lookup_some_of_any_true {α : Type} :
    ∀ (o : List (String × α)) (k : String),
      o.any (fun p => p.1 = k) = true → ∃ w, o.lookup k = some w
  | [], k, h => by simp at h
  | p :: rest, k, h => by
    obtain ⟨k1, v1⟩ := p
    by_cases he : k = k1
    · subst he
      exact ⟨v1, lookup_cons_self k v1 rest⟩
    · rw [lookup_cons_ne k (k1, v1) rest (by simpa using he)]
      apply lookup_some_of_any_true rest k
      have h2 := h
      simp only [List.any_cons, Bool.or_eq_true, decide_eq_true_eq] at h2
      rcases h2 with h1 | h2
      · exact absurd h1 (fun hc => he hc.symm)
      · simpa using h2

/-- Updating a present key rewrites its value in place. -/
theorem lookup_map_set {α : Type} :
    ∀ (o : List (String × α)) (k : String) (v : α),
      (o.map (fun p => if p.1 = k then (p.1, v) else p)).lookup k
        = (o.lookup k).map (fun _ => v)
  | [], _, _ => rfl
  | p :: rest, k, v => by
    obtain ⟨k1, v1⟩ := p
    rw [List.map_cons]
    by_cases he : k1 = k
    · subst he
      rw [if_pos (rfl : ((k1, v1).1 = k1)),
        show ((k1, v1) :: rest).lookup k1 = some v1 from
          lookup_cons_self k1 v1 rest]
      exact lookup_cons_self k1 v _
    · rw [if_neg he,
        lookup_cons_ne k (k1, v1) _ (fun hc => he hc.symm),
        lookup_cons_ne k (k1, v1) rest (fun hc => he hc.symm)]
      exact lookup_map_set rest k v

/-- Appending a fresh binding makes it retrievable. -/
theorem lookup_append_single {α : Type} :
    ∀ (o : List (String × α)) (k : String) (v : α),
      o.lookup k = none → (o ++ [(k, v)]).lookup k = some v
  | [], k, v, _ => by simp [List.lookup]
  | p :: rest, k, v, h => by
    by_cases he : k = p.1
    · obtain ⟨k1, v1⟩ := p
      subst he
      rw [lookup_cons_self] at h
      exact absurd h (by simp)
    · rw [lookup_cons_ne k p rest he] at h
      rw [List.cons_append, lookup_cons_ne k p _ he]
      exact lookup_append_single rest k v h

/-- Object assignment leaves the assigned key retrievable with the new
value. -/
theorem lookup_setEntry_self {α : Type} (o : List (String × α)) (k : String)
    (v : α) : (setEntry o k v).lookup k = some v := by
  unfold setEntry
  by_cases h : o.any (fun p => p.1 = k)
  · rw [if_pos h, lookup_map_set o k v]
    obtain ⟨w, hw⟩ := lookup_some_of_any_true o k h
    rw [hw]
    rfl
  · have hfalse : o.any (fun p => p.1 = k) = false := by
      cases hb : o.any (fun p => p.1 = k)
      · rfl
      · exact absurd hb h
    rw [if_neg h]
    exact lookup_append_single o k v (lookup_none_of_any_false o k hfalse)

/-- Updating a present key preserves the key list; assigning a fresh key
appends it. -/
theorem setEntry_keys {α : Type} (o : List (String × α)) (k : String)
    (v : α) :
    (o.any (fun p => p.1 = k) = true →
      (setEntry o k v).map Prod.fst = o.map Prod.fst) ∧
    (o.any (fun p => p.1 = k) = false →
      (setEntry o k v).map Prod.fst = o.map Prod.fst ++ [k]) := by
  constructor
  · intro h
    unfold setEntry
    rw [if_pos h, List.map_map]
    apply List.map_congr_left
    intro p _
    by_cases he : p.1 = k <;> simp [he]
  · intro h
    unfold setEntry
    rw [if_neg (by simp [h])]
    simp

/-- Routing an outbound message touches only the buffer and the orphan
waiters. -/
theorem routeOutboundMessage_preserves (st : BridgeState) (m : JsonRpcMsg) :
    (routeOutboundMessage st m).connected = st.connected ∧
    (routeOutboundMessage st m).connectCalls = st.connectCalls ∧
    (routeOutboundMessage st m).inst = st.inst := by
  unfold routeOutboundMessage
  cases st.orphanWaits with
  | nil => exact ⟨rfl, rfl, rfl⟩
  | cons o rest => by_cases h : m.id = some o <;> simp [h]

/-- Folding the routing over any message list preserves the connection
state. -/
theorem foldl_route_preserves :
    ∀ (msgs : List JsonRpcMsg) (st : BridgeState),
      ((msgs.foldl routeOutboundMessage st).connected = st.connected ∧
       (msgs.foldl routeOutboundMessage st).connectCalls = st.connectCalls ∧
       (msgs.foldl routeOutboundMessage st).inst = st.inst)
  | [], st => ⟨rfl, rfl, rfl⟩
  | m :: rest, st => by
    have h1 := routeOutboundMessage_preserves st m
    have h2 := foldl_route_preserves rest (routeOutboundMessage st m)
    rw [List.foldl_cons]
    exact ⟨h2.1.trans h1.1, h2.2.1.trans h1.2.1, h2.2.2.trans h1.2.2⟩

/-- The correlation wait touches only the buffer and the orphan waiters. -/
theorem awaitResponse_preserves (st : BridgeState) (nid : String) :
    ((st.awaitResponse nid).1.connected = st.connected ∧
     (st.awaitResponse nid).1.connectCalls = st.connectCalls ∧
     (st.awaitResponse nid).1.inst = st.inst) := by
  unfold BridgeState.awaitResponse
  cases scanForResponse nid st.buffered with
  | none => exact ⟨rfl, rfl, rfl⟩
  | some pr => exact ⟨rfl, rfl, rfl⟩

/-- A request on an already connected bridge never reconnects: the
connected flag, the connect count and the wrapped instance are
preserved. -/
theorem handleRequest_connected (st : BridgeState) (m : JsonRpcMsg)
    (h : st.connected = true) :
    ((st.handleRequest m).1.connected = true ∧
     (st.handleRequest m).1.connectCalls = st.connectCalls ∧
     (st.handleRequest m).1.inst = st.inst) := by
  unfold BridgeState.handleRequest BridgeState.ensureConnected
    BridgeState.deliver
  rw [h]
  simp only [if_true]
  have hd := foldl_route_preserves (st.inst.respond m) st
  cases m.id with
  | none => exact ⟨hd.1.trans h, hd.2.1, hd.2.2⟩
  | some nid =>
    have ha := awaitResponse_preserves
      ((st.inst.respond m).foldl routeOutboundMessage st) nid
    exact ⟨(ha.1.trans hd.1).trans h, ha.2.1.trans hd.2.1,
      ha.2.2.trans hd.2.2⟩

/-- The first request on a fresh bridge whose instance exposes a
successful connect method connects it exactly once. -/
theorem handleRequest_fresh (inst : McpInstance) (m : JsonRpcMsg)
    (hc : inst.hasConnect = true) (hok : inst.connectResult = .ok ()) :
    (((BridgeState.fresh inst).handleRequest m).1.connected = true ∧
     ((BridgeState.fresh inst).handleRequest m).1.connectCalls = 1 ∧
     ((BridgeState.fresh inst).handleRequest m).1.inst = inst) := by
  unfold BridgeState.handleRequest BridgeState.ensureConnected
    BridgeState.fresh BridgeState.deliver
  simp only [hc, hok, Bool.not_true, Bool.false_eq_true, if_false, reduceIte]
  set st1 : BridgeState :=
    { inst := inst, connected := true, connectCalls := 0 + 1,
      buffered := [], orphanWaits := [] } with hst1
  have hd := foldl_route_preserves (inst.respond m) st1
  cases m.id with
  | none => exact ⟨hd.1, hd.2.1, hd.2.2⟩
  | some nid =>
    have ha := awaitResponse_preserves
      ((inst.respond m).foldl routeOutboundMessage st1) nid
    exact ⟨ha.1.trans hd.1, ha.2.1.trans hd.2.1, ha.2.2.trans hd.2.2⟩

/-- One engine-level mcp_message step on a server whose bridge is already
connected keeps the bridge memoized and connected without reconnecting,
and leaves the bridge key list unchanged. -/
theorem mcpMessageStep_connected (es : McpEngineState) (name : String)
    (m : JsonRpcMsg) (bst : BridgeState)
    (hb : es.bridges.lookup name = some bst) (hconn : bst.connected = true) :
    ∃ bst2,
      (mcpMessageStep es name m).1.bridges.lookup name = some bst2 ∧
      bst2.connected = true ∧ bst2.connectCalls = bst.connectCalls ∧
      bst2.inst = bst.inst ∧
      (mcpMessageStep es name m).1.bridges.map Prod.fst
        = es.bridges.map Prod.fst := by
  unfold mcpMessageStep
  rw [hb]
  refine ⟨_, lookup_setEntry_self _ _ _, ?_, ?_, ?_, ?_⟩
  · exact (handleRequest_connected bst m hconn).1
  · exact (handleRequest_connected bst m hconn).2.1
  · exact (handleRequest_connected bst m hconn).2.2
  · exact (setEntry_keys es.bridges name _).1
      (any_true_of_lookup_some es.bridges name bst hb)

/-- A run of mcp_message requests against a connected memoized bridge
keeps it connected with the same connect count, the same wrapped instance,
and the same bridge keys. -/
theorem runMcpMessages_connected (name : String) :
    ∀ (msgs : List JsonRpcMsg) (es : McpEngineState) (bst : BridgeState),
      es.bridges.lookup name = some bst → bst.connected = true →
      ∃ bst2,
        (runMcpMessages es (msgs.map (fun m => (name, m)))).1.bridges.lookup
            name = some bst2 ∧
        bst2.connected = true ∧ bst2.connectCalls = bst.connectCalls ∧
        bst2.inst = bst.inst ∧
        (runMcpMessages es
            (msgs.map (fun m => (name, m)))).1.bridges.map Prod.fst
          = es.bridges.map Prod.fst
  | [], es, bst, hb, hconn => ⟨bst, hb, hconn, rfl, rfl, rfl⟩
  | m :: rest, es, bst, hb, hconn => by
    obtain ⟨bst1, hb1, hconn1, hcalls1, hinst1, hkeys1⟩ :=
      mcpMessageStep_connected es name m bst hb hconn
    obtain ⟨bst2, hb2, hconn2, hcalls2, hinst2, hkeys2⟩ :=
      runMcpMessages_connected name rest (mcpMessageStep es name m).1 bst1
        hb1 hconn1
    refine ⟨bst2, ?_, hconn2, hcalls2.trans hcalls1, hinst2.trans hinst1, ?_⟩
    · simpa [runMcpMessages] using hb2
    · simpa [runMcpMessages] using hkeys2.trans hkeys1

/-- Claim C5 (confirmed): for a registered local service with a successful
connect method and no bridge yet, a run of one or more mcp_message
requests naming that server creates and memoizes exactly one bridge - its
key is appended once to the bridge map - whose instance has been connected
exactly once, no matter how many requests follow the first. -/
theorem claim_C5_connect_exactly_once (es : McpEngineState) (name : String)
    (inst : McpInstance) (m0 : JsonRpcMsg) (msgs : List JsonRpcMsg)
    (hserver : es.servers.lookup name = some inst)
    (hbridge : es.bridges.lookup name = none)
    (hc : inst.hasConnect = true) (hok : inst.connectResult = .ok ()) :
    ∃ bst,
      (runMcpMessages es
          ((m0 :: msgs).map (fun m => (name, m)))).1.bridges.lookup name
        = some bst ∧
      bst.connectCalls = 1 ∧ bst.connected = true ∧ bst.inst = inst ∧
      (runMcpMessages es
          ((m0 :: msgs).map (fun m => (name, m)))).1.bridges.map Prod.fst
        = es.bridges.map Prod.fst ++ [name] := by
  have hany : es.bridges.any (fun p => p.1 = name) = false := by
    cases hb : es.bridges.any (fun p => p.1 = name)
    · rfl
    · obtain ⟨w, hw⟩ := lookup_some_of_any_true es.bridges name hb
      rw [hw] at hbridge
      exact absurd hbridge (by simp)
  have hstep : (mcpMessageStep es name m0).1.bridges.lookup name
      = some ((BridgeState.fresh inst).handleRequest m0).1 ∧
      (mcpMessageStep es name m0).1.bridges.map Prod.fst
        = es.bridges.map Prod.fst ++ [name] := by
    unfold mcpMessageStep
    rw [hbridge, hserver]
    exact ⟨lookup_setEntry_self _ _ _, (setEntry_keys es.bridges name _).2 hany⟩
  obtain ⟨hfc, hfcalls, hfinst⟩ := handleRequest_fresh inst m0 hc hok
  obtain ⟨bst2, hb2, hconn2, hcalls2, hinst2, hkeys2⟩ :=
    runMcpMessages_connected name msgs (mcpMessageStep es name m0).1
      ((BridgeState.fresh inst).handleRequest m0).1 hstep.1 hfc
  refine ⟨bst2, ?_, hcalls2.trans hfcalls, hconn2, hinst2.trans hfinst, ?_⟩
  · simpa [runMcpMessages] using hb2
  · rw [show (runMcpMessages es ((m0 :: msgs).map (fun m => (name, m)))).1
        = (runMcpMessages (mcpMessageStep es name m0).1
            (msgs.map (fun m => (name, m)))).1 from rfl]
    exact hkeys2.trans hstep.2

/-- Claim C5 witness: three requests against the demo engine leave one
bridge under demo with exactly one connect call. -/
theorem claim_C5_witness :
    ∃ bst,
      (runMcpMessages demoEngine
          [("demo", mcpReq2), ("demo", mcpReq2), ("demo", mcpReq2)]
        ).1.bridges.lookup "demo" = some bst ∧
      bst.connectCalls = 1 ∧ bst.connected = true ∧
      bst.inst = demoInstance ∧
      (runMcpMessages demoEngine
          [("demo", mcpReq2), ("demo", mcpReq2), ("demo", mcpReq2)]
        ).1.bridges.map Prod.fst = ["demo"] := by
  have h := claim_C5_connect_exactly_once demoEngine "demo" demoInstance
    mcpReq2 [mcpReq2, mcpReq2] rfl rfl rfl rfl
  exact h

/-- Claim C6 (code bug): the first half of the claim holds - a request
whose reply never arrives fails with the timeout error, and the bound is
the fixed 60000 milliseconds - but the second half does not: the abandoned
correlation loop of the timed-out request stays registered on the shared
outbound iterator and consumes the next reply (comparing it against its
own stale id and discarding it), so a later request on the same bridge
whose reply does arrive times out as well; run alone, the same later
request succeeds. -/
theorem claim_C6_timeout_steals_later_reply :
    mcpResponseTimeoutMs = 60000 ∧
    (runMcpMessages demoEngine [("demo", mcpReq1), ("demo", mcpReq2)]).2
      = [.error "等待 MCP 响应超时。", .error "等待 MCP 响应超时。"] ∧
    (runMcpMessages demoEngine [("demo", mcpReq2)]).2
      = [.ok { id := some "2", body := JsonValue.str "reply" }] ∧
    ((runMcpMessages demoEngine [("demo", mcpReq1), ("demo", mcpReq2)]
        ).1.bridges.lookup "demo").map (fun b => b.orphanWaits)
      = some ["1", "2"] :=
  ⟨rfl, rfl, rfl, rfl⟩

/-- Claim C4 counterexample: two handleRequest calls issued in the same
synchronous stretch both read the initial this.queue promise before either
installs its replacement, so under the JavaScript microtask order both
processRequest bodies run interleaved: the wrapped instance sees the
second deliver invocation start while the first is still in flight (two
live deliver activations), and even its connect method is invoked twice;
the run quiesces. -/
theorem claim_C4_counterexample :
    raceRun.maxDeliver = 2 ∧
    occursBefore (.deliverStart true) (.deliverEnd false) raceRun.events
      = true ∧
    raceRun.connectCalls = 2 ∧
    raceRun.microQ = [] :=
  ⟨rfl, rfl, rfl, rfl⟩

/-- Claim C4 (corrected): when the second handleRequest call begins only
after the first has resumed from await this.queue and installed its
pending promise - the schedule the engine read-loop dispatch produces -
the calls are serialized: the first request settles before the second
deliver starts, at most one deliver activation is ever live, and connect
runs once; the run quiesces. -/
theorem claim_C4_staggered_serialized :
    staggeredRun.maxDeliver = 1 ∧
    occursBefore (.prSettled false) (.deliverStart true) staggeredRun.events
      = true ∧
    staggeredRun.connectCalls = 1 ∧
    staggeredRun.microQ = [] :=
  ⟨rfl, rfl, rfl, rfl⟩
